import Mathlib
/-!
Verification of the record-store and document-renderer logic of the
testimonial application (`src/streamlit_testimonial.py`).

The embedding below follows the source file closely:

* `PyVal` models a dataframe cell (integer, string, or NaN missing value).
* `Row` models one row of `StudentDatabase.df`, which always has the eight
  columns `Serial, ID, Name, Father, Mother, Class, Session, DOB`; the store
  itself is a `List Row`.
* `get_student_by_id`, `upsert_student`, `get_next_serial`, `loadExcel` and
  `saveExcel` model the corresponding `StudentDatabase` methods.  Stateful
  mutation plus exceptions is rendered as explicit state passing:
  `upsert_student` returns the new table together with an optional raised
  error message.
* `pronounsFor`, `buildParagraph` and the `wrapGroups` / `createPdfLines`
  functions model the document-rendering logic of
  `TestimonialApp._create_pdf` (pronoun resolution, the narrative template,
  and the greedy word wrap against the usable page width measured with the
  Times-Roman string-width metric at size 11).
-/

/-- A spreadsheet / dataframe cell value: an integer, a string, or a NaN
missing value (the value the dataframe library puts in absent cells). -/
inductive PyVal where
  | intV : Int → PyVal
  | strV : String → PyVal
  | nanV : PyVal
deriving DecidableEq

/-- Python `str()` of a cell value, as used by `.astype(str)` and by
f-string interpolation (`str(float("nan"))` is `"nan"`). -/
def pyStr : PyVal → String
  | .intV n => toString n
  | .strV s => s
  | .nanV => "nan"

/-- Numeric value of a list of decimal digit characters (empty list is 0,
matching `int(float(".5")) = 0`). -/
def digitsVal (cs : List Char) : Nat :=
  cs.foldl (fun a c => 10 * a + (c.toNat - '0'.toNat)) 0

/-- Parse a decimal number (optional sign, integer part, optional `.` and
fractional part) and truncate toward zero.  This models
`pd.to_numeric(x, errors="coerce")` followed by `astype(int)` on a string
cell: numeric strings give their integer-truncated value, everything else
(including the empty string) gives `none` (NaN).  Exponent notation and
values beyond exact float range are outside the scope of the claims and are
not modelled. -/
def parseDecTrunc (cs : List Char) : Option Int :=
  let sr : Int × List Char :=
    match cs with
    | '-' :: t => (-1, t)
    | '+' :: t => (1, t)
    | _ => (1, cs)
  let ip := sr.2.takeWhile Char.isDigit
  let rest := sr.2.drop ip.length
  match rest with
  | [] => if ip = [] then none else some (sr.1 * (digitsVal ip : Int))
  | '.' :: fp =>
    if fp.all Char.isDigit ∧ (ip ≠ [] ∨ fp ≠ []) then
      some (sr.1 * (digitsVal ip : Int))
    else none
  | _ => none

/-- Python `s.strip()`: remove leading and trailing whitespace. -/
def pyStrip (s : String) : String :=
  String.mk (((s.toList.dropWhile Char.isWhitespace).reverse.dropWhile Char.isWhitespace).reverse)

/-- `pd.to_numeric(cell, errors="coerce")` followed by integer truncation,
returning `none` where the coercion yields NaN (pandas strips surrounding
whitespace from numeric strings, hence the strip). -/
def toNumericInt : PyVal → Option Int
  | .intV n => some n
  | .strV s => parseDecTrunc (pyStrip s).toList
  | .nanV => none

/-- Remove the first `'.'` of a character list: Python
`s.replace('.', '', 1)`. -/
def removeFirstDot : List Char → List Char
  | [] => []
  | c :: cs => if c = '.' then cs else c :: removeFirstDot cs

/-- The ID normalization of `load_excel` (line 46 of the source):
`str(int(float(x))) if str(x).replace('.', '', 1).isdigit() else str(x)`.
A string that is all digits after deleting at most one dot is rewritten to
the decimal rendering of its integer part (truncation, leading zeros
dropped); every other string passes through unchanged. -/
def normId (s : String) : String :=
  let t := removeFirstDot s.toList
  if t ≠ [] ∧ t.all Char.isDigit then
    toString (digitsVal (s.toList.takeWhile (fun c => c ≠ '.')))
  else s

/-- One row of `StudentDatabase.df`: the dataframe always carries exactly
the eight columns `Serial, ID, Name, Father, Mother, Class, Session, DOB`
(`klass` stands for the `Class` column). -/
structure Row where
  serial : PyVal
  id : PyVal
  name : PyVal
  father : PyVal
  mother : PyVal
  klass : PyVal
  session : PyVal
  dob : PyVal
deriving DecidableEq

/-- `pd.to_numeric(v, errors="coerce").fillna(0).astype(int)` on one Serial
cell: numeric values keep their integer truncation, everything else
(non-numeric strings, NaN) becomes 0. -/
def coerceSerialCell (v : PyVal) : PyVal :=
  .intV ((toNumericInt v).getD 0)

/-- Re-coerce the Serial field of one row, leaving all other fields
untouched (the columnwise Serial normalization acts rowwise). -/
def coerceRow (r : Row) : Row :=
  { r with serial := coerceSerialCell r.serial }

/-- The Serial-column re-normalization performed at the end of
`upsert_student` (and by `load_excel`). -/
def coerceSerials (T : List Row) : List Row :=
  T.map coerceRow

/-- Index of the first row whose ID, as a string, equals `sid`: models
`self.df[self.df["ID"].astype(str) == sid].index` followed by `idx[0]`. -/
def findMatchIdx (sid : String) : List Row → Option Nat
  | [] => none
  | r :: rs => if pyStr r.id = sid then some 0 else (findMatchIdx sid rs).map (· + 1)

/-- `StudentDatabase.upsert_student` (lines 99-114): state passing renders
the mutation of `self.df`; the second component is the raised error, if
any.  The stripped ID must be non-empty; the first row whose stringified ID
equals the stripped ID is overwritten with the (unstripped) incoming data,
otherwise the data is appended; finally the Serial column is re-coerced.
The incoming dict always carries exactly the eight columns (as built by
`generate_pdf`), so the field-by-field overwrite replaces the whole row. -/
def upsert_student (T : List Row) (data : Row) : List Row × Option String :=
  if pyStrip (pyStr data.id) = "" then (T, some "ID required to upsert.")
  else
    match findMatchIdx (pyStrip (pyStr data.id)) T with
    | some i => (coerceSerials (T.set i data), none)
    | none => (coerceSerials (T ++ [data]), none)

/-- `StudentDatabase.get_student_by_id` (lines 81-97): a falsy (empty)
identifier short-circuits to `None`; otherwise the first row whose
stringified ID equals `str(student_id)` is returned (the returned dict
carries the full row). -/
def get_student_by_id (T : List Row) (student_id : String) : Option Row :=
  if student_id = "" then none
  else T.find? (fun r => pyStr r.id = student_id)

/-- Is a cell the NaN missing value (dropped by `.dropna()`). -/
def isNan : PyVal → Bool
  | .nanV => true
  | _ => false

/-- Columnwise `pd.to_numeric(..., errors="coerce").astype(int)`: the cast
to int raises (here: `none`) as soon as any cell fails to coerce. -/
def coerceAll : List PyVal → Option (List Int)
  | [] => some []
  | v :: vs =>
    match toNumericInt v, coerceAll vs with
    | some n, some ns => some (n :: ns)
    | _, _ => none

/-- `StudentDatabase.get_next_serial` (lines 72-79): 1 on an empty table;
otherwise NaN serials are dropped, the rest are coerced to numbers and cast
to int — the cast raises as soon as one cell fails to coerce, in which case
the method falls back to 1; otherwise it returns the maximum plus 1 (or 1
if nothing is left after `dropna`). -/
def get_next_serial (T : List Row) : Int :=
  if T.isEmpty then 1
  else
    match coerceAll ((T.map (fun r => r.serial)).filter (fun v => ¬ isNan v)) with
    | none => 1
    | some [] => 1
    | some (x :: xs) => xs.foldl max x + 1

/-- The header row the store expects. -/
def expectedCols : List String :=
  ["Serial", "ID", "Name", "Father", "Mother", "Class", "Session", "DOB"]

/-- An input tabular file as the dataframe library presents it: a header
row of column names and data rows of cells aligned to the columns. -/
structure RawFrame where
  columns : List String
  rows : List (List PyVal)
deriving DecidableEq

/-- The first position of a column name in the header: models indexing a
dataframe column by name. -/
def colIdx (name : String) : List String → Option Nat
  | [] => none
  | c :: cs => if c = name then some 0 else (colIdx name cs).map (· + 1)

/-- `df[name]` on a row after the missing-column fill of `load_excel`:
a present column yields its cell (NaN where the row is short), an absent
column was just created holding the empty string. -/
def cellOf (cols : List String) (row : List PyVal) (name : String) : PyVal :=
  match colIdx name cols with
  | some i => row.getD i .nanV
  | none => .strV ""

/-- The rowwise effect of `StudentDatabase.load_excel` (lines 36-55) after
the column names are stripped: absent expected columns are filled with
`""`, the ID cell is stringified and normalized, only the eight expected
columns are kept, and the Serial cell is coerced to an integer (0 for
non-numeric). -/
def loadRow (cols : List String) (row : List PyVal) : Row :=
  { serial := coerceSerialCell (cellOf cols row "Serial")
    id := .strV (normId (pyStr (cellOf cols row "ID")))
    name := cellOf cols row "Name"
    father := cellOf cols row "Father"
    mother := cellOf cols row "Mother"
    klass := cellOf cols row "Class"
    session := cellOf cols row "Session"
    dob := cellOf cols row "DOB" }

/-- `StudentDatabase.load_excel` on an input frame: strip the column
names, then apply the columnwise normalizations (all rowwise). -/
def loadExcel (f : RawFrame) : List Row :=
  f.rows.map (loadRow (f.columns.map pyStrip))

/-- `StudentDatabase.save_excel`: `self.df.to_excel(path, index=False)`
writes the eight columns in order with the current cell values (the
spreadsheet encoding of individual cells is abstracted: cells are written
and re-read as the values they hold). -/
def saveExcel (T : List Row) : RawFrame :=
  ⟨expectedCols,
   T.map (fun r => [r.serial, r.id, r.name, r.father, r.mother, r.klass, r.session, r.dob])⟩

/-- The five gender-dependent tokens of the narrative template, in the
order of the tuple assignment in the source. -/
structure PronounSet where
  he_she : String
  capHe_She : String
  his_her : String
  capHim_Her : String
  son_daughter : String
deriving DecidableEq

/-- Pronoun resolution of `_create_pdf` (lines 443-446): the literal string
`"male"` selects the male set, every other value the female set. -/
def pronounsFor (gender : String) : PronounSet :=
  if gender = "male" then ⟨"he", "He", "his", "him", "son"⟩
  else ⟨"she", "She", "her", "her", "daughter"⟩

/-- The narrative paragraph of `_create_pdf` (lines 486-493), with the
record fields and the resolved pronoun set substituted into the fixed
template (f-string interpolation is `str()`, i.e. `pyStr`). -/
def buildParagraph (entry : Row) (gender : String) : String :=
  let p := pronounsFor gender
  pyStr entry.name ++ " " ++ p.son_daughter ++ " of " ++ pyStr entry.father ++
    " and " ++ pyStr entry.mother ++ " is a student of Class: " ++
    pyStr entry.klass ++ ". " ++
  "Bearing ID/Roll: " ++ pyStr entry.id ++
    " in Daffodil University School & College. " ++
  "As per our admission record " ++ p.his_her ++ " date of birth is " ++
    pyStr entry.dob ++ ". " ++
  "To the best of my knowledge " ++ p.he_she ++
    " was well mannered and possessed a good moral character. " ++
  p.capHe_She ++ " did not indulge " ++ p.capHim_Her ++
    "self in any activity subversive to the state and discipline during study. " ++
  "I wish " ++ p.capHim_Her ++ " every success in life!"

/-- Glyph width of the Adobe core `Times-Roman` font (AFM `WX` values, in
thousandths of the font size) for the printable ASCII characters needed by
the evaluated strings; characters outside this table are given the default
width 500 (no evaluated string uses them). -/
def timesRomanWidth (c : Char) : Nat :=
  match c with
  | ' ' => 250 | '!' => 333 | '#' => 500 | '$' => 500 | '%' => 833
  | '&' => 778 | '(' => 333 | ')' => 333 | '*' => 500 | '+' => 564
  | ',' => 250 | '-' => 333 | '.' => 250 | '/' => 278
  | '0' => 500 | '1' => 500 | '2' => 500 | '3' => 500 | '4' => 500
  | '5' => 500 | '6' => 500 | '7' => 500 | '8' => 500 | '9' => 500
  | ':' => 278 | ';' => 278 | '=' => 564 | '?' => 444
  | 'A' => 722 | 'B' => 667 | 'C' => 667 | 'D' => 722 | 'E' => 611
  | 'F' => 556 | 'G' => 722 | 'H' => 722 | 'I' => 333 | 'J' => 389
  | 'K' => 722 | 'L' => 611 | 'M' => 889 | 'N' => 722 | 'O' => 722
  | 'P' => 556 | 'Q' => 722 | 'R' => 667 | 'S' => 556 | 'T' => 611
  | 'U' => 722 | 'V' => 722 | 'W' => 944 | 'X' => 722 | 'Y' => 722
  | 'Z' => 611
  | 'a' => 444 | 'b' => 500 | 'c' => 444 | 'd' => 500 | 'e' => 444
  | 'f' => 333 | 'g' => 500 | 'h' => 500 | 'i' => 278 | 'j' => 278
  | 'k' => 500 | 'l' => 278 | 'm' => 778 | 'n' => 500 | 'o' => 500
  | 'p' => 500 | 'q' => 500 | 'r' => 333 | 's' => 389 | 't' => 278
  | 'u' => 500 | 'v' => 500 | 'w' => 722 | 'x' => 500 | 'y' => 500
  | 'z' => 444
  | _ => 500

/-- `c.stringWidth(text, "Times-Roman", 11)`: the sum of the glyph widths
times the font size, in thousandths (points). -/
def stringWidthTR11 (s : String) : ℚ :=
  11 * (((s.toList.map timesRomanWidth).sum : ℚ)) / 1000

/-- One millimetre in points (`reportlab.lib.units.mm`): `72 / 25.4`. -/
def mmPt : ℚ := 72 / (254 / 10)

/-- The usable page width of `_create_pdf`: A4 width (210 mm) minus the
25 mm left and right margins, in points (`W - left - right`). -/
def usableWidth : ℚ := 210 * mmPt - 25 * mmPt - 25 * mmPt

/-- `" ".join(ws)`. -/
def joinWords : List String → String
  | [] => ""
  | [w] => w
  | w :: ws => w ++ " " ++ joinWords ws

/-- Helper of `pySplit`: accumulates the current (reversed) word. -/
def pySplitAux (cur : List Char) : List Char → List String
  | [] => if cur = [] then [] else [String.mk cur.reverse]
  | c :: cs =>
    if c.isWhitespace then
      if cur = [] then pySplitAux [] cs
      else String.mk cur.reverse :: pySplitAux [] cs
    else pySplitAux (c :: cur) cs

/-- Python `paragraph.split()`: split on whitespace runs, dropping empty
pieces. -/
def pySplit (s : String) : List String :=
  pySplitAux [] s.toList

/-- The greedy word-wrap loop of `_create_pdf` (lines 499-509), at the
level of lines as word lists: each word is appended to the current line;
if the joined line then measures wider than `maxW` the word is popped
again, the previous line is emitted and a fresh line starts with the word;
the final line is always emitted. -/
def wrapGroups (sw : String → ℚ) (maxW : ℚ) : List String → List String → List (List String)
  | line, [] => [line]
  | line, w :: ws =>
    if sw (joinWords (line ++ [w])) > maxW then
      line :: wrapGroups sw maxW [w] ws
    else
      wrapGroups sw maxW (line ++ [w]) ws

/-- The lines `_create_pdf` draws for a paragraph: the wrap runs over the
whitespace-split words with the Times-Roman size-11 metric against the
usable page width, and each emitted line is the space-join of its words. -/
def createPdfLines (paragraph : String) : List String :=
  (wrapGroups stringWidthTR11 usableWidth [] (pySplit paragraph)).map joinWords

/-- The Times-Roman width of a string, scaled by `127000/mm`: an integer
whose comparison with `57600000` matches the comparison of the rational
width with the usable width. -/
def swScaled (s : String) : Nat :=
  1397 * (s.toList.map timesRomanWidth).sum

/-- Integer mirror of the wrap loop, used only to evaluate the wrap on
concrete inputs. -/
def wrapGroupsN : List String → List String → List (List String)
  | line, [] => [line]
  | line, w :: ws =>
    if swScaled (joinWords (line ++ [w])) > 57600000 then
      line :: wrapGroupsN [w] ws
    else
      wrapGroupsN (line ++ [w]) ws

/-- A single word of sixty `m` glyphs: its Times-Roman width at size 11
(513.48 pt) exceeds the usable page width (453.54 pt). -/
def longWordM : String := String.mk (List.replicate 60 'm')

/-- Counterexample paragraph for the wrap claim: an over-wide single word
followed by a one-letter word. -/
def paraC2 : String := longWordM ++ " a"

/-- Witness paragraph for the amended wrap claim: 58 copies of the word
`ab`, joined by single spaces (width 759 pt, needing two lines). -/
def paraC2w : String := joinWords (List.replicate 58 "ab")

/-- The worked example record of the spec (`{ID:"12", Name:"Asha",
Father:"Ram", Mother:"Sita", Class:"10", Session:"2024",
DOB:"01/01/2010"}`). -/
def ashaEntry : Row :=
  ⟨.intV 1, .strV "12", .strV "Asha", .strV "Ram", .strV "Sita", .strV "10",
   .strV "2024", .strV "01/01/2010"⟩

/-- A record whose ID is whitespace only (strips to empty). -/
def dataBlankId : Row :=
  ⟨.intV 7, .strV "   ", .strV "N", .strV "F", .strV "M", .strV "K", .strV "S", .strV "D"⟩

/-- A store whose Serial cells are `[3, 1, 5]`. -/
def tSer315 : List Row :=
  [⟨.intV 3, .strV "1", .strV "", .strV "", .strV "", .strV "", .strV "", .strV ""⟩,
   ⟨.intV 1, .strV "2", .strV "", .strV "", .strV "", .strV "", .strV "", .strV ""⟩,
   ⟨.intV 5, .strV "3", .strV "", .strV "", .strV "", .strV "", .strV "", .strV ""⟩]

/-- A nonempty store with a non-numeric Serial cell. -/
def tSerBad : List Row :=
  [⟨.strV "abc", .strV "1", .strV "", .strV "", .strV "", .strV "", .strV "", .strV ""⟩]

/-- A record stored under the canonical ID string `"7"`. -/
def rowC1 : Row :=
  ⟨.intV 1, .strV "7", .strV "Asha", .strV "Ram", .strV "Sita", .strV "10",
   .strV "2024", .strV "01/01/2010"⟩

/-- An input file carrying the example record under the ID `"007"`. -/
def frameC1 : RawFrame :=
  ⟨expectedCols,
   [[.intV 1, .strV "007", .strV "Asha", .strV "Ram", .strV "Sita", .strV "10",
     .strV "2024", .strV "01/01/2010"]]⟩

/-- An input file whose header has only a (padded) Name column. -/
def frameNameOnly : RawFrame := ⟨[" Name "], [[.strV "Bob"]]⟩

/-- The single record loaded from `frameNameOnly`. -/
def rowNameOnly : Row := loadRow ["Name"] [.strV "Bob"]

/-- The cells `save_excel` writes for one row. -/
def saveCells (r : Row) : List PyVal :=
  [r.serial, r.id, r.name, r.father, r.mother, r.klass, r.session, r.dob]

/-- A store holding a non-canonical ID string (`"007"`). -/
def tC7 : List Row :=
  [⟨.intV 1, .strV "007", .strV "A", .strV "B", .strV "C", .strV "D", .strV "E", .strV "F"⟩]

/-- A store with canonical ID and integer Serial. -/
def tC7w : List Row :=
  [⟨.intV 2, .strV "7", .strV "A", .strV "B", .strV "C", .strV "D", .strV "E", .strV "F"⟩]

/-- A record whose ID carries surrounding whitespace. -/
def dataWs : Row :=
  ⟨.intV 1, .strV " 7 ", .strV "A", .strV "B", .strV "C", .strV "D", .strV "E", .strV "F"⟩

/-- A record with a whitespace-free ID and a numeric-string Serial. -/
def dataC4 : Row :=
  ⟨.strV "5", .strV "12", .strV "N", .strV "F", .strV "M", .strV "10", .strV "2024", .strV "D"⟩

/-- A two-row store whose second row matches the upserted ID. -/
def tC9 : List Row :=
  [⟨.intV 1, .strV "1", .strV "P", .strV "Q", .strV "R", .strV "S", .strV "T", .strV "U"⟩,
   ⟨.intV 2, .strV "12", .strV "V", .strV "W", .strV "X", .strV "Y", .strV "Z", .strV "0"⟩]

/-- The record upserted in the C9 witness. -/
def dataC9 : Row :=
  ⟨.intV 9, .strV "12", .strV "N2", .strV "F2", .strV "M2", .strV "11", .strV "2025", .strV "D2"⟩

/-- `stringWidthTR11`, unfolded. -/
theorem stringWidthTR11_def (s : String) :
    stringWidthTR11 s = 11 * (((s.toList.map timesRomanWidth).sum : ℚ)) / 1000 := rfl

/-- The usable width is `160 mm = 57600/127` points. -/
theorem usableWidth_eq : usableWidth = 57600 / 127 := by
  simp only [usableWidth, mmPt]
  norm_num

/-- The width comparison of the wrap loop, as an integer comparison. -/
theorem sw_gt_usable_iff (s : String) :
    stringWidthTR11 s > usableWidth ↔ swScaled s > 57600000 := by
  rw [stringWidthTR11_def, usableWidth_eq, swScaled, gt_iff_lt, gt_iff_lt,
    div_lt_div_iff₀ (by norm_num) (by norm_num)]
  have h : (11 : ℚ) * (((s.toList.map timesRomanWidth).sum : ℕ) : ℚ) * 127 =
      ((1397 * (s.toList.map timesRomanWidth).sum : ℕ) : ℚ) := by
    push_cast
    ring
  rw [h]
  constructor
  · intro hlt
    exact_mod_cast hlt
  · intro hlt
    exact_mod_cast hlt

/-- The complementary comparison. -/
theorem sw_le_usable_iff (s : String) :
    stringWidthTR11 s ≤ usableWidth ↔ swScaled s ≤ 57600000 := by
  rw [← not_lt, ← not_lt, not_iff_not, ← gt_iff_lt, ← gt_iff_lt]
  exact sw_gt_usable_iff s

/-- The wrap of `_create_pdf` agrees with its integer mirror. -/
theorem wrapGroups_eq_wrapGroupsN (ws : List String) : ∀ line,
    wrapGroups stringWidthTR11 usableWidth line ws = wrapGroupsN line ws := by
  induction ws with
  | nil => intro line; rfl
  | cons w ws ih =>
    intro line
    simp only [wrapGroups, wrapGroupsN, sw_gt_usable_iff, ih]

/-- The emitted lines, via the integer mirror. -/
theorem createPdfLines_eq (p : String) :
    createPdfLines p = (wrapGroupsN [] (pySplit p)).map joinWords := by
  rw [createPdfLines, wrapGroups_eq_wrapGroupsN]

/-- The empty string has width 0. -/
theorem stringWidthTR11_empty : stringWidthTR11 "" = 0 := by
  rw [stringWidthTR11_def]
  norm_num

/-- The usable width is positive. -/
theorem usableWidth_pos : 0 < usableWidth := by
  rw [usableWidth_eq]
  norm_num

/-- Joining a nonempty list of words to a nonempty list of words inserts a
single space at the seam. -/
theorem joinWords_append (g h : List String) (hg : g ≠ []) (hh : h ≠ []) :
    joinWords (g ++ h) = joinWords g ++ " " ++ joinWords h := by
  induction g with
  | nil => exact absurd rfl hg
  | cons x g ih =>
    cases g with
    | nil =>
      cases h with
      | nil => exact absurd rfl hh
      | cons y hs => simp [joinWords]
    | cons x2 g2 =>
      have step := ih (by simp)
      calc joinWords ((x :: x2 :: g2) ++ h)
          = x ++ " " ++ joinWords ((x2 :: g2) ++ h) := rfl
        _ = x ++ " " ++ (joinWords (x2 :: g2) ++ " " ++ joinWords h) := by rw [step]
        _ = (x ++ " " ++ joinWords (x2 :: g2)) ++ " " ++ joinWords h := by
              rw [← String.append_assoc, ← String.append_assoc]
        _ = joinWords (x :: x2 :: g2) ++ " " ++ joinWords h := rfl

/-- A wrap never returns an empty list of groups. -/
theorem wrapGroups_ne_nil : ∀ (ws line : List String),
    wrapGroups stringWidthTR11 usableWidth line ws ≠ [] := by
  intro ws
  induction ws with
  | nil => intro line; simp [wrapGroups]
  | cons w ws ih =>
    intro line
    simp only [wrapGroups]
    split
    · simp
    · exact ih (line ++ [w])

/-- Soundness of the greedy wrap loop, provided every single word fits
within the usable width: every emitted group fits, the emitted groups
concatenate back to the input words, and no emitted group is empty (except
for the degenerate run started and finished empty). -/
theorem wrapGroups_sound : ∀ (ws line : List String),
    (∀ w ∈ ws, stringWidthTR11 w ≤ usableWidth) →
    (line = [] ∨ stringWidthTR11 (joinWords line) ≤ usableWidth) →
    (∀ g ∈ wrapGroups stringWidthTR11 usableWidth line ws,
        stringWidthTR11 (joinWords g) ≤ usableWidth) ∧
    (wrapGroups stringWidthTR11 usableWidth line ws).flatten = line ++ ws ∧
    (∀ g ∈ wrapGroups stringWidthTR11 usableWidth line ws, g = [] → line = [] ∧ ws = []) := by
  intro ws
  induction ws with
  | nil =>
    intro line hfit hline
    refine ⟨?_, by simp [wrapGroups], ?_⟩
    · intro g hg
      simp only [wrapGroups, List.mem_singleton] at hg
      subst hg
      rcases hline with h | h
      · subst h
        simpa [joinWords, stringWidthTR11_empty] using le_of_lt usableWidth_pos
      · exact h
    · intro g hg hge
      simp only [wrapGroups, List.mem_singleton] at hg
      subst hg
      exact ⟨hge, rfl⟩
  | cons w ws ih =>
    intro line hfit hline
    have hwfit : stringWidthTR11 (joinWords [w]) ≤ usableWidth := by
      simpa [joinWords] using hfit w (by simp)
    by_cases hov : stringWidthTR11 (joinWords (line ++ [w])) > usableWidth
    · have hlinee : line ≠ [] := by
        rintro rfl
        simp only [List.nil_append] at hov
        exact absurd hov (not_lt.mpr hwfit)
      have hlw : stringWidthTR11 (joinWords line) ≤ usableWidth := hline.resolve_left hlinee
      obtain ⟨ihA, ihB, ihC⟩ :=
        ih [w] (fun v hv => hfit v (by simp [hv])) (Or.inr hwfit)
      simp only [wrapGroups, if_pos hov]
      refine ⟨?_, ?_, ?_⟩
      · intro g hg
        rcases List.mem_cons.mp hg with h | h
        · subst h; exact hlw
        · exact ihA g h
      · simp [ihB]
      · intro g hg hge
        rcases List.mem_cons.mp hg with h | h
        · subst h; exact absurd hge hlinee
        · exact absurd (ihC g h hge).1 (by simp)
    · obtain ⟨ihA, ihB, ihC⟩ :=
        ih (line ++ [w]) (fun v hv => hfit v (by simp [hv])) (Or.inr (not_lt.mp hov))
      simp only [wrapGroups, if_neg hov]
      refine ⟨ihA, ?_, ?_⟩
      · simp [ihB]
      · intro g hg hge
        exact absurd (ihC g hg hge).1 (by simp)

/-- Joining the per-group joins equals joining the concatenation, when no
group is empty. -/
theorem joinWords_map_flatten : ∀ (gs : List (List String)),
    (∀ g ∈ gs, g ≠ []) →
    joinWords (gs.map joinWords) = joinWords gs.flatten := by
  intro gs
  induction gs with
  | nil => intro _; rfl
  | cons g gs ih =>
    intro h
    cases gs with
    | nil => simp [joinWords]
    | cons g2 gs2 =>
      have hg : g ≠ [] := h g (by simp)
      have hrest : ∀ x ∈ g2 :: gs2, x ≠ [] := fun x hx => h x (by simp [hx])
      have hflat : (g2 :: gs2).flatten ≠ [] := by
        have hg2 := hrest g2 (by simp)
        cases g2 with
        | nil => exact absurd rfl hg2
        | cons a as => simp
      calc joinWords ((g :: g2 :: gs2).map joinWords)
          = joinWords g ++ " " ++ joinWords ((g2 :: gs2).map joinWords) := rfl
        _ = joinWords g ++ " " ++ joinWords (g2 :: gs2).flatten := by rw [ih hrest]
        _ = joinWords (g ++ (g2 :: gs2).flatten) := (joinWords_append _ _ hg hflat).symm
        _ = joinWords ((g :: g2 :: gs2).flatten) := rfl

/-- C2, as stated, is false: `paraC2` satisfies the claim's precondition
(its rendered width exceeds the usable width by at least one word — indeed
already its first word alone is wider than the usable width — and it has
two words), the wrap does split it into multiple lines, but the emitted
line holding the over-wide word exceeds the usable width, and the emitted
lines include a spurious empty line, so their space-join prepends a space
to the original paragraph. -/
theorem claim_C2_counterexample :
    stringWidthTR11 paraC2 > usableWidth ∧
    2 ≤ (pySplit paraC2).length ∧
    createPdfLines paraC2 = ["", longWordM, "a"] ∧
    ¬ ((∀ l ∈ createPdfLines paraC2, stringWidthTR11 l ≤ usableWidth) ∧
        joinWords (createPdfLines paraC2) = paraC2) := by
  have hlines : createPdfLines paraC2 = ["", longWordM, "a"] := by
    rw [createPdfLines_eq]
    decide
  refine ⟨(sw_gt_usable_iff paraC2).mpr (by decide), by decide, hlines, ?_⟩
  rintro ⟨hfit, hjoin⟩
  have hmem : longWordM ∈ createPdfLines paraC2 := by
    rw [hlines]
    simp
  exact absurd ((sw_gt_usable_iff longWordM).mpr (by decide))
    (not_lt.mpr (hfit longWordM hmem))

/-- C2 (amended): for every paragraph that is whitespace-normalized (it
equals the single-space join of its words) and in which every single
word's rendered width at Times-Roman size 11 is at most the usable width,
the greedy wrap of `_create_pdf` emits only lines whose rendered width is
at most the usable width, joining the emitted lines with single spaces
yields exactly the original paragraph, and a paragraph wider than the
usable width is split into at least two lines. -/
theorem claim_C2 (p : String)
    (hnorm : joinWords (pySplit p) = p)
    (hfit : ∀ w ∈ pySplit p, stringWidthTR11 w ≤ usableWidth) :
    (∀ l ∈ createPdfLines p, stringWidthTR11 l ≤ usableWidth) ∧
    joinWords (createPdfLines p) = p ∧
    (stringWidthTR11 p > usableWidth → 2 ≤ (createPdfLines p).length) := by
  obtain ⟨hA, hB, hC⟩ := wrapGroups_sound (pySplit p) [] hfit (Or.inl rfl)
  have hlines : createPdfLines p =
      (wrapGroups stringWidthTR11 usableWidth [] (pySplit p)).map joinWords := rfl
  refine ⟨?_, ?_, ?_⟩
  · intro l hl
    rw [hlines] at hl
    obtain ⟨g, hg, rfl⟩ := List.mem_map.mp hl
    exact hA g hg
  · by_cases hw : pySplit p = []
    · rw [hlines, hw, ← hnorm, hw]
      rfl
    · have hne : ∀ g ∈ wrapGroups stringWidthTR11 usableWidth [] (pySplit p), g ≠ [] := by
        intro g hg hge
        exact hw ((hC g hg hge).2)
      rw [hlines, joinWords_map_flatten _ hne, hB]
      simpa using hnorm
  · intro hover
    by_contra hlen
    push_neg at hlen
    have hmaplen : (createPdfLines p).length =
        (wrapGroups stringWidthTR11 usableWidth [] (pySplit p)).length := by
      rw [hlines, List.length_map]
    have hne : wrapGroups stringWidthTR11 usableWidth [] (pySplit p) ≠ [] :=
      wrapGroups_ne_nil (pySplit p) []
    have hpos : 1 ≤ (wrapGroups stringWidthTR11 usableWidth [] (pySplit p)).length :=
      List.length_pos.mpr hne
    have hlen1 : (wrapGroups stringWidthTR11 usableWidth [] (pySplit p)).length = 1 := by
      omega
    obtain ⟨g, hg⟩ := List.length_eq_one.mp hlen1
    have hgmem : g ∈ wrapGroups stringWidthTR11 usableWidth [] (pySplit p) := by
      rw [hg]
      simp
    have hfitg := hA g hgmem
    have hflat : g = pySplit p := by
      have hflatten := hB
      rw [hg] at hflatten
      simpa using hflatten
    rw [hflat, hnorm] at hfitg
    exact absurd hover (not_lt.mpr hfitg)

set_option maxRecDepth 8000 in
/-- Witness for C2 (amended), at `paraC2w`: the hypotheses hold and the
wrap emits only fitting lines that join back to the paragraph. -/
theorem claim_C2_witness :
    (joinWords (pySplit paraC2w) = paraC2w ∧
      (∀ w ∈ pySplit paraC2w, stringWidthTR11 w ≤ usableWidth)) ∧
    ((∀ l ∈ createPdfLines paraC2w, stringWidthTR11 l ≤ usableWidth) ∧
      joinWords (createPdfLines paraC2w) = paraC2w ∧
      (stringWidthTR11 paraC2w > usableWidth → 2 ≤ (createPdfLines paraC2w).length)) := by
  have h1 : joinWords (pySplit paraC2w) = paraC2w := by decide
  have h2 : ∀ w ∈ pySplit paraC2w, stringWidthTR11 w ≤ usableWidth := by
    intro w hw
    have hsplit : pySplit paraC2w = List.replicate 58 "ab" := by decide
    rw [hsplit] at hw
    have hab : w = "ab" := List.eq_of_mem_replicate hw
    subst hab
    exact (sw_le_usable_iff "ab").mpr (by decide)
  exact ⟨⟨h1, h2⟩, claim_C2 paraC2w h1 h2⟩

set_option maxRecDepth 4000 in
/-- C8: the gender `"male"` resolves to the pronoun set
`{he, He, his, him, son}` with distinct possessive and object pronouns;
every other gender value resolves to `{she, She, her, her, daughter}`
(using `her` for both the possessive and object slots); and the paragraph
generated for the spec's example record with gender `Female` starts with
`"Asha daughter of Ram and Sita is a student of Class: 10."` (in
particular it contains that substring). -/
theorem claim_C8 :
    pronounsFor "male" = ⟨"he", "He", "his", "him", "son"⟩ ∧
    (pronounsFor "male").his_her ≠ (pronounsFor "male").capHim_Her ∧
    (∀ g, g ≠ "male" → pronounsFor g = ⟨"she", "She", "her", "her", "daughter"⟩) ∧
    buildParagraph ashaEntry "Female" =
      "Asha daughter of Ram and Sita is a student of Class: 10." ++
      " Bearing ID/Roll: 12 in Daffodil University School & College. As per our admission record her date of birth is 01/01/2010. To the best of my knowledge she was well mannered and possessed a good moral character. She did not indulge herself in any activity subversive to the state and discipline during study. I wish her every success in life!" := by
  refine ⟨rfl, by decide, ?_, by decide⟩
  intro g hg
  simp [pronounsFor, hg]

/-- Witness for C8, at the concrete non-male gender `"Female"`. -/
theorem claim_C8_witness :
    pronounsFor "Female" = ⟨"she", "She", "her", "her", "daughter"⟩ :=
  claim_C8.2.2.1 "Female" (by decide)

/-- C10: looking up the empty (falsy) identifier returns `none` for every
store, in particular also for stores containing a row whose ID is the
empty string. -/
theorem claim_C10 : ∀ T : List Row, get_student_by_id T "" = none := by
  intro T
  simp [get_student_by_id]

/-- C3: upserting a record whose ID stringifies and strips to the empty
string raises the validation error `"ID required to upsert."` and returns
the table unchanged. -/
theorem claim_C3 (T : List Row) (data : Row) (h : pyStrip (pyStr data.id) = "") :
    upsert_student T data = (T, some "ID required to upsert.") := by
  simp [upsert_student, h]

/-- Witness for C3, at a record whose ID is whitespace only, over a
nonempty store. -/
theorem claim_C3_witness :
    pyStrip (pyStr dataBlankId.id) = "" ∧
    upsert_student [ashaEntry] dataBlankId = ([ashaEntry], some "ID required to upsert.") :=
  ⟨by decide, claim_C3 [ashaEntry] dataBlankId (by decide)⟩

/-- Integer cells coerce to themselves. -/
theorem coerceAll_intV (l : List Int) :
    coerceAll (l.map PyVal.intV) = some l := by
  induction l with
  | nil => rfl
  | cons x xs ih => simp [coerceAll, ih, toNumericInt]

/-- C5: `get_next_serial` returns 1 on the empty store; on a store whose
Serial cells are the integers `x :: xs` it returns their maximum plus one;
and it returns 1 (rather than raising) whenever coercing the
(non-NaN) Serial cells to integers fails. -/
theorem claim_C5 (T : List Row) :
    (T = [] → get_next_serial T = 1) ∧
    (∀ x xs, T.map (fun r => r.serial) = (x :: xs).map PyVal.intV →
      get_next_serial T = xs.foldl max x + 1) ∧
    ((T ≠ [] ∧
        coerceAll ((T.map (fun r => r.serial)).filter (fun v => ¬ isNan v)) = none) →
      get_next_serial T = 1) := by
  refine ⟨?_, ?_, ?_⟩
  · rintro rfl
    rfl
  · intro x xs hmap
    have hne : T ≠ [] := by
      intro h0
      rw [h0] at hmap
      simp at hmap
    have hfil : (T.map (fun r => r.serial)).filter (fun v => ¬ isNan v) =
        (x :: xs).map PyVal.intV := by
      rw [hmap]
      apply List.filter_eq_self.mpr
      intro a ha
      obtain ⟨b, _, rfl⟩ := List.mem_map.mp ha
      simp [isNan]
    unfold get_next_serial
    rw [if_neg (by simpa using hne), hfil, coerceAll_intV]
  · rintro ⟨hne, hnone⟩
    unfold get_next_serial
    rw [if_neg (by simpa using hne), hnone]

/-- Witness for C5: the spec's example `[3,1,5] → 6`, the empty store, and
a coercion failure falling back to 1. -/
theorem claim_C5_witness :
    get_next_serial tSer315 = 6 ∧ get_next_serial [] = 1 ∧ get_next_serial tSerBad = 1 := by
  refine ⟨?_, (claim_C5 []).1 rfl, (claim_C5 tSerBad).2.2 ⟨by decide, by decide⟩⟩
  have h := (claim_C5 tSer315).2.1 3 [1, 5] (by decide)
  rw [h]
  decide

/-- C1, as stated, is false: after inserting a record under the ID `"7"`
(via `upsert_student`), looking it up with `"007"` or `"7.0"` returns
`none`, not the record — `get_student_by_id` does not normalize its input
ID. -/
theorem claim_C1_counterexample :
    (upsert_student [] rowC1).1 = [coerceRow rowC1] ∧
    get_student_by_id (upsert_student [] rowC1).1 "7" = some (coerceRow rowC1) ∧
    get_student_by_id (upsert_student [] rowC1).1 "007" = none ∧
    get_student_by_id (upsert_student [] rowC1).1 "7.0" = none :=
  ⟨by decide, by decide, by decide, by decide⟩

/-- C1 (amended): the lookup never normalizes its input — any record it
returns has a stored ID string equal to the raw input string.  The IDs
`"7"`, `"007"` and `"7.0"` are conflated only on the insertion side:
`load_excel` normalizes all three stored forms to `"7"`, after which the
lookup succeeds for the input `"7"` and returns `none` for the inputs
`"007"` and `"7.0"`. -/
theorem claim_C1 :
    (∀ (T : List Row) (s : String) (r : Row),
        get_student_by_id T s = some r → pyStr r.id = s) ∧
    (normId "7" = "7" ∧ normId "007" = "7" ∧ normId "7.0" = "7") ∧
    loadExcel frameC1 = [rowC1] ∧
    get_student_by_id (loadExcel frameC1) "7" = some rowC1 ∧
    get_student_by_id (loadExcel frameC1) "007" = none ∧
    get_student_by_id (loadExcel frameC1) "7.0" = none := by
  refine ⟨?_, ⟨by decide, by decide, by decide⟩, by decide, by decide, by decide, by decide⟩
  intro T s r h
  unfold get_student_by_id at h
  split at h
  · exact absurd h (by simp)
  · exact of_decide_eq_true
      (@List.find?_some Row (fun x => decide (pyStr x.id = s)) r T h)

/-- Witness for C1 (amended): a successful lookup whose hypothesis is
discharged at a concrete store. -/
theorem claim_C1_witness :
    get_student_by_id [rowC1] "7" = some rowC1 ∧ pyStr rowC1.id = "7" :=
  ⟨by decide, claim_C1.1 [rowC1] "7" rowC1 (by decide)⟩

/-- A name that is not a column has no position. -/
theorem colIdx_eq_none (name : String) (cols : List String) (h : name ∉ cols) :
    colIdx name cols = none := by
  induction cols with
  | nil => rfl
  | cons c cs ih =>
    have hc : c ≠ name := fun hcn => h (by simp [hcn])
    simp only [colIdx, if_neg hc]
    rw [ih (fun hm => h (by simp [hm]))]
    rfl

/-- An absent column reads as the empty string. -/
theorem cellOf_eq_empty (cols : List String) (row : List PyVal) (name : String)
    (h : name ∉ cols) : cellOf cols row name = .strV "" := by
  unfold cellOf
  rw [colIdx_eq_none name cols h]

/-- C6: after `load_excel`, every record has all seven non-serial fields
present, and every field whose (stripped) column was absent from the input
file's header holds the empty string. -/
theorem claim_C6 (f : RawFrame) (r : Row) (hr : r ∈ loadExcel f) :
    ("ID" ∉ f.columns.map pyStrip → r.id = .strV "") ∧
    ("Name" ∉ f.columns.map pyStrip → r.name = .strV "") ∧
    ("Father" ∉ f.columns.map pyStrip → r.father = .strV "") ∧
    ("Mother" ∉ f.columns.map pyStrip → r.mother = .strV "") ∧
    ("Class" ∉ f.columns.map pyStrip → r.klass = .strV "") ∧
    ("Session" ∉ f.columns.map pyStrip → r.session = .strV "") ∧
    ("DOB" ∉ f.columns.map pyStrip → r.dob = .strV "") := by
  obtain ⟨row, hrow, rfl⟩ := List.mem_map.mp hr
  refine ⟨?_, ?_, ?_, ?_, ?_, ?_, ?_⟩ <;> intro h
  · show PyVal.strV (normId (pyStr (cellOf (f.columns.map pyStrip) row "ID"))) = .strV ""
    rw [cellOf_eq_empty _ _ _ h]
    rfl
  · exact cellOf_eq_empty _ _ _ h
  · exact cellOf_eq_empty _ _ _ h
  · exact cellOf_eq_empty _ _ _ h
  · exact cellOf_eq_empty _ _ _ h
  · exact cellOf_eq_empty _ _ _ h
  · exact cellOf_eq_empty _ _ _ h

/-- Witness for C6, at a file missing all columns but Name: the absent
fields load as the empty string. -/
theorem claim_C6_witness :
    rowNameOnly ∈ loadExcel frameNameOnly ∧
    rowNameOnly.id = .strV "" ∧ rowNameOnly.father = .strV "" ∧
    rowNameOnly.dob = .strV "" ∧ rowNameOnly.name = .strV "Bob" := by
  have hmem : rowNameOnly ∈ loadExcel frameNameOnly := by decide
  have h := claim_C6 frameNameOnly rowNameOnly hmem
  exact ⟨hmem, h.1 (by decide), h.2.2.1 (by decide), h.2.2.2.2.2.2 (by decide), by decide⟩

/-- `saveExcel`, rowwise. -/
theorem saveExcel_def (T : List Row) : saveExcel T = ⟨expectedCols, T.map saveCells⟩ := rfl

/-- Reloading a saved row reproduces it, provided its Serial is an integer
cell and its ID is a string cell fixed under the load-time ID
normalization. -/
theorem loadRow_saveCells (r : Row) (n : Int) (hn : r.serial = .intV n)
    (hid : r.id = .strV (normId (pyStr r.id))) :
    loadRow (expectedCols.map pyStrip) (saveCells r) = r := by
  have hcols : expectedCols.map pyStrip = expectedCols := by decide
  rw [hcols]
  cases r with
  | mk s i nm fa mo kl se db =>
    simp only at hn hid
    subst hn
    show Row.mk (coerceSerialCell (.intV n)) (.strV (normId (pyStr i))) nm fa mo kl se db =
      Row.mk (.intV n) i nm fa mo kl se db
    rw [← hid]
    rfl

/-- C7, as stated, is false: saving and reloading a store whose row is
keyed `"007"` re-normalizes the ID to `"7"`, so no record with a
string-identical ID survives the round trip. -/
theorem claim_C7_counterexample :
    loadExcel (saveExcel tC7) ≠ tC7 ∧
    (loadExcel (saveExcel tC7)).map (fun r => pyStr r.id) = ["7"] ∧
    tC7.map (fun r => pyStr r.id) = ["007"] :=
  ⟨by decide, by decide, by decide⟩

/-- C7 (amended): `save_excel` followed by `load_excel` reproduces the
store exactly — all eight fields of every record, in order — provided
every record's Serial is an integer and every record's stored ID string is
fixed under the load-time ID normalization (both hold for any store
produced by `load_excel` itself). -/
theorem claim_C7 (T : List Row)
    (h : ∀ r ∈ T, (∃ n, r.serial = .intV n) ∧ r.id = .strV (normId (pyStr r.id))) :
    loadExcel (saveExcel T) = T := by
  induction T with
  | nil => rfl
  | cons r T ih =>
    have hr := h r (by simp)
    obtain ⟨⟨n, hn⟩, hid⟩ := hr
    have hT : loadExcel (saveExcel T) = T := ih (fun x hx => h x (by simp [hx]))
    have hstep : loadExcel (saveExcel (r :: T)) =
        loadRow (expectedCols.map pyStrip) (saveCells r) :: loadExcel (saveExcel T) := rfl
    rw [hstep, hT, loadRow_saveCells r n hn hid]

/-- Witness for C7 (amended), at a one-row canonical store. -/
theorem claim_C7_witness :
    (∀ r ∈ tC7w, (∃ n, r.serial = PyVal.intV n) ∧ r.id = .strV (normId (pyStr r.id))) ∧
    loadExcel (saveExcel tC7w) = tC7w := by
  have h : ∀ r ∈ tC7w, (∃ n, r.serial = PyVal.intV n) ∧ r.id = .strV (normId (pyStr r.id)) := by
    intro r hr
    simp only [tC7w, List.mem_singleton] at hr
    subst hr
    exact ⟨⟨2, rfl⟩, by decide⟩
  exact ⟨h, claim_C7 tC7w h⟩

/-- Re-coercion leaves the ID untouched. -/
theorem coerceRow_id (r : Row) : (coerceRow r).id = r.id := rfl

/-- Re-coercion of a Serial cell is idempotent. -/
theorem coerceRow_idem (r : Row) : coerceRow (coerceRow r) = coerceRow r := by
  cases r
  simp [coerceRow, coerceSerialCell, toNumericInt]

/-- Re-coercion of the Serial column is idempotent. -/
theorem coerceSerials_idem (T : List Row) :
    coerceSerials (coerceSerials T) = coerceSerials T := by
  induction T with
  | nil => rfl
  | cons r rs ih =>
    show coerceRow (coerceRow r) :: coerceSerials (coerceSerials rs) = _ :: coerceSerials rs
    rw [coerceRow_idem, ih]

/-- Serial re-coercion does not change which row matches an ID. -/
theorem findMatchIdx_coerceSerials (sid : String) (T : List Row) :
    findMatchIdx sid (coerceSerials T) = findMatchIdx sid T := by
  induction T with
  | nil => rfl
  | cons r rs ih =>
    show findMatchIdx sid (coerceRow r :: coerceSerials rs) = _
    simp only [findMatchIdx, coerceRow_id]
    by_cases hc : pyStr r.id = sid
    · rw [if_pos hc, if_pos hc]
    · rw [if_neg hc, if_neg hc, ih]

/-- A match index is within the table. -/
theorem findMatchIdx_lt (sid : String) : ∀ (T : List Row) (i : Nat),
    findMatchIdx sid T = some i → i < T.length := by
  intro T
  induction T with
  | nil => intro i h; simp [findMatchIdx] at h
  | cons r rs ih =>
    intro i h
    simp only [findMatchIdx] at h
    by_cases hc : pyStr r.id = sid
    · rw [if_pos hc] at h
      cases h
      simp
    · rw [if_neg hc] at h
      cases hf : findMatchIdx sid rs with
      | none => rw [hf] at h; simp at h
      | some j =>
        rw [hf] at h
        simp only [Option.map_some'] at h
        cases h
        have := ih j hf
        simp only [List.length_cons]
        omega

/-- The matched row's ID matches. -/
theorem findMatchIdx_getElem (sid : String) : ∀ (T : List Row) (i : Nat),
    findMatchIdx sid T = some i → ∀ r, T[i]? = some r → pyStr r.id = sid := by
  intro T
  induction T with
  | nil => intro i h; simp [findMatchIdx] at h
  | cons r rs ih =>
    intro i h
    simp only [findMatchIdx] at h
    by_cases hc : pyStr r.id = sid
    · rw [if_pos hc] at h
      cases h
      intro x hx
      simp only [List.getElem?_cons_zero, Option.some.injEq] at hx
      rw [← hx]
      exact hc
    · rw [if_neg hc] at h
      cases hf : findMatchIdx sid rs with
      | none => rw [hf] at h; simp at h
      | some j =>
        rw [hf] at h
        simp only [Option.map_some'] at h
        cases h
        intro x hx
        simp only [List.getElem?_cons_succ] at hx
        exact ih j hf x hx

/-- Rows before the matched row do not match. -/
theorem findMatchIdx_first (sid : String) : ∀ (T : List Row) (i : Nat),
    findMatchIdx sid T = some i →
    ∀ j r, j < i → T[j]? = some r → pyStr r.id ≠ sid := by
  intro T
  induction T with
  | nil => intro i h; simp [findMatchIdx] at h
  | cons r rs ih =>
    intro i h
    simp only [findMatchIdx] at h
    by_cases hc : pyStr r.id = sid
    · rw [if_pos hc] at h
      cases h
      intro j x hj
      omega
    · rw [if_neg hc] at h
      cases hf : findMatchIdx sid rs with
      | none => rw [hf] at h; simp at h
      | some k =>
        rw [hf] at h
        simp only [Option.map_some'] at h
        cases h
        intro j x hj hx
        cases j with
        | zero =>
          simp only [List.getElem?_cons_zero, Option.some.injEq] at hx
          rw [← hx]
          exact hc
        | succ n =>
          simp only [List.getElem?_cons_succ] at hx
          exact ih k hf n x (by omega) hx

/-- No row matches when no match index is found. -/
theorem findMatchIdx_none_mem (sid : String) : ∀ (T : List Row),
    findMatchIdx sid T = none → ∀ r ∈ T, pyStr r.id ≠ sid := by
  intro T
  induction T with
  | nil => intro _ r hr; simp at hr
  | cons x rs ih =>
    intro h r hr
    simp only [findMatchIdx] at h
    by_cases hc : pyStr x.id = sid
    · rw [if_pos hc] at h; simp at h
    · rw [if_neg hc] at h
      rcases List.mem_cons.mp hr with hcase | hcase
      · rw [hcase]; exact hc
      · cases hf : findMatchIdx sid rs with
        | none => exact ih hf r hcase
        | some j => rw [hf] at h; simp at h

/-- Overwriting the matched row with a still-matching record keeps the
match index. -/
theorem findMatchIdx_set (sid : String) (d : Row) (hd : pyStr d.id = sid) :
    ∀ (T : List Row) (i : Nat), findMatchIdx sid T = some i →
    findMatchIdx sid (T.set i d) = some i := by
  intro T
  induction T with
  | nil => intro i h; simp [findMatchIdx] at h
  | cons r rs ih =>
    intro i h
    simp only [findMatchIdx] at h
    by_cases hc : pyStr r.id = sid
    · rw [if_pos hc] at h
      cases h
      show findMatchIdx sid (d :: rs) = some 0
      simp [findMatchIdx, hd]
    · rw [if_neg hc] at h
      cases hf : findMatchIdx sid rs with
      | none => rw [hf] at h; simp at h
      | some j =>
        rw [hf] at h
        simp only [Option.map_some'] at h
        cases h
        show findMatchIdx sid (r :: rs.set j d) = some (j + 1)
        simp only [findMatchIdx, if_neg hc, ih j hf, Option.map_some']

/-- Searching an extension of a matchless table shifts the match index by
the prefix length. -/
theorem findMatchIdx_append_of_none (sid : String) (M : List Row) :
    ∀ (T : List Row), findMatchIdx sid T = none →
    findMatchIdx sid (T ++ M) = (findMatchIdx sid M).map (· + T.length) := by
  intro T
  induction T with
  | nil =>
    intro _
    simp only [List.nil_append, List.length_nil]
    cases hf : findMatchIdx sid M with
    | none => rfl
    | some j => simp
  | cons r rs ih =>
    intro h
    simp only [findMatchIdx] at h
    by_cases hc : pyStr r.id = sid
    · rw [if_pos hc] at h; simp at h
    · rw [if_neg hc] at h
      have hnone : findMatchIdx sid rs = none := by
        cases hf : findMatchIdx sid rs with
        | none => rfl
        | some j => rw [hf] at h; simp at h
      show findMatchIdx sid (r :: (rs ++ M)) = _
      simp only [findMatchIdx, if_neg hc, ih hnone]
      cases hf : findMatchIdx sid M with
      | none => rfl
      | some j =>
        simp only [Option.map_some', List.length_cons, Option.some.injEq]
        omega

/-- Serial re-coercion acts elementwise through `List.set`. -/
theorem coerceSerials_set (T : List Row) (d : Row) : ∀ (i : Nat),
    coerceSerials (T.set i d) = (coerceSerials T).set i (coerceRow d) := by
  induction T with
  | nil => intro i; cases i <;> rfl
  | cons r rs ih =>
    intro i
    cases i with
    | zero => rfl
    | succ n =>
      show coerceRow r :: coerceSerials (rs.set n d) = _
      rw [ih n]
      rfl

/-- Serial re-coercion acts elementwise through append. -/
theorem coerceSerials_append (T M : List Row) :
    coerceSerials (T ++ M) = coerceSerials T ++ coerceSerials M := by
  simp [coerceSerials]

/-- Serial re-coercion preserves the row count. -/
theorem coerceSerials_length (T : List Row) : (coerceSerials T).length = T.length := by
  simp [coerceSerials]

/-- Indexing through the Serial re-coercion. -/
theorem getElem?_coerceSerials (T : List Row) : ∀ (j : Nat),
    (coerceSerials T)[j]? = (T[j]?).map coerceRow := by
  induction T with
  | nil => intro j; simp [coerceSerials]
  | cons r rs ih =>
    intro j
    cases j with
    | zero => simp [coerceSerials]
    | succ n =>
      have hn := ih n
      simp only [coerceSerials, List.map_cons, List.getElem?_cons_succ]
      simp [coerceSerials]

/-- Reading back the just-written cell. -/
theorem getElem?_set_self (a : Row) : ∀ (T : List Row) (i : Nat), i < T.length →
    (T.set i a)[i]? = some a := by
  intro T
  induction T with
  | nil => intro i h; simp at h
  | cons r rs ih =>
    intro i h
    cases i with
    | zero => simp
    | succ n =>
      simp only [List.set_cons_succ, List.getElem?_cons_succ]
      exact ih n (by simpa using h)

/-- Writing one cell leaves the others unchanged. -/
theorem getElem?_set_ne (a : Row) : ∀ (T : List Row) (i j : Nat), i ≠ j →
    (T.set i a)[j]? = T[j]? := by
  intro T
  induction T with
  | nil => intro i j _; simp
  | cons r rs ih =>
    intro i j hij
    cases i with
    | zero =>
      cases j with
      | zero => exact absurd rfl hij
      | succ m => simp
    | succ n =>
      cases j with
      | zero => simp
      | succ m =>
        simp only [List.set_cons_succ, List.getElem?_cons_succ]
        exact ih n m (by omega)

/-- Writing back the value already present changes nothing. -/
theorem set_self_of_getElem? (a : Row) : ∀ (T : List Row) (i : Nat),
    T[i]? = some a → T.set i a = T := by
  intro T
  induction T with
  | nil => intro i h; simp at h
  | cons r rs ih =>
    intro i h
    cases i with
    | zero =>
      have hra : r = a := by simpa using h
      rw [← hra]
      rfl
    | succ n =>
      show r :: rs.set n a = r :: rs
      rw [ih n (by simpa using h)]

/-- Setting the cell right after a prefix replaces the appended element. -/
theorem set_append_last (b c : Row) : ∀ (L : List Row),
    (L ++ [b]).set L.length c = L ++ [c] := by
  intro L
  induction L with
  | nil => rfl
  | cons x xs ih =>
    show x :: (xs ++ [b]).set xs.length c = x :: (xs ++ [c])
    rw [ih]

/-- C4, as stated, is false: `upsert_student` matches rows against the
stripped ID but appends the record with its raw ID, so upserting the same
record with ID `" 7 "` (non-empty after stripping) twice appends two rows
carrying that ID instead of updating in place. -/
theorem claim_C4_counterexample :
    pyStrip (pyStr dataWs.id) ≠ "" ∧
    ((upsert_student [] dataWs).1).length = 1 ∧
    ((upsert_student (upsert_student [] dataWs).1 dataWs).1).length = 2 ∧
    (upsert_student (upsert_student [] dataWs).1 dataWs).1 ≠ (upsert_student [] dataWs).1 ∧
    ((upsert_student (upsert_student [] dataWs).1 dataWs).1).all
      (fun r => r.id == dataWs.id) = true :=
  ⟨by decide, by decide, by decide, by decide, by decide⟩

/-- C4 (amended): for every record whose stringified ID is non-empty and
free of surrounding whitespace (equal to its stripped form),
`upsert_student` is idempotent: the table after two identical upserts
equals the table after one (so the second call updates in place and
appends nothing), and when no row of the original store carried the ID,
exactly one row of the result does. -/
theorem claim_C4 (T : List Row) (data : Row)
    (h1 : pyStr data.id ≠ "") (h2 : pyStrip (pyStr data.id) = pyStr data.id) :
    (upsert_student (upsert_student T data).1 data).1 = (upsert_student T data).1 ∧
    ((∀ r ∈ T, pyStr r.id ≠ pyStr data.id) →
      ((upsert_student (upsert_student T data).1 data).1).countP
        (fun r => pyStr r.id = pyStr data.id) = 1) := by
  have hup : ∀ L : List Row, upsert_student L data =
      match findMatchIdx (pyStr data.id) L with
      | some i => (coerceSerials (L.set i data), none)
      | none => (coerceSerials (L ++ [data]), none) := by
    intro L
    simp only [upsert_student, h2]
    rw [if_neg h1]
  cases hfind : findMatchIdx (pyStr data.id) T with
  | some i =>
    have hlt : i < T.length := findMatchIdx_lt _ T i hfind
    have h1T : (upsert_student T data).1 = coerceSerials (T.set i data) := by
      rw [hup T, hfind]
    have hfind1 : findMatchIdx (pyStr data.id) (coerceSerials (T.set i data)) = some i := by
      rw [findMatchIdx_coerceSerials]
      exact findMatchIdx_set (pyStr data.id) data rfl T i hfind
    have h2T : (upsert_student (coerceSerials (T.set i data)) data).1 =
        coerceSerials ((coerceSerials (T.set i data)).set i data) := by
      rw [hup _, hfind1]
    have hcell : (coerceSerials (T.set i data))[i]? = some (coerceRow data) := by
      rw [getElem?_coerceSerials, getElem?_set_self data T i hlt]
      rfl
    have hkey : coerceSerials ((coerceSerials (T.set i data)).set i data) =
        coerceSerials (T.set i data) := by
      rw [coerceSerials_set, coerceSerials_idem]
      exact set_self_of_getElem? (coerceRow data) _ i hcell
    have hmain : (upsert_student (upsert_student T data).1 data).1 =
        (upsert_student T data).1 := by
      rw [h1T, h2T, hkey]
    refine ⟨hmain, ?_⟩
    intro hnomatch
    exfalso
    have hTi : T[i]? = some (T[i]) := List.getElem?_eq_getElem hlt
    have hmem : T[i] ∈ T := List.getElem_mem hlt
    exact hnomatch _ hmem (findMatchIdx_getElem (pyStr data.id) T i hfind _ hTi)
  | none =>
    have h1T : (upsert_student T data).1 = coerceSerials T ++ [coerceRow data] := by
      rw [hup T, hfind]
      show coerceSerials (T ++ [data]) = _
      rw [coerceSerials_append]
      rfl
    have hfind1 : findMatchIdx (pyStr data.id) (coerceSerials T ++ [coerceRow data]) =
        some T.length := by
      have hnc : findMatchIdx (pyStr data.id) (coerceSerials T) = none := by
        rw [findMatchIdx_coerceSerials]
        exact hfind
      rw [findMatchIdx_append_of_none (pyStr data.id) [coerceRow data] _ hnc]
      have hone : findMatchIdx (pyStr data.id) [coerceRow data] = some 0 := by
        simp [findMatchIdx, coerceRow_id]
      rw [hone, Option.map_some', coerceSerials_length]
      simp
    have h2T : (upsert_student (coerceSerials T ++ [coerceRow data]) data).1 =
        coerceSerials ((coerceSerials T ++ [coerceRow data]).set T.length data) := by
      rw [hup _, hfind1]
    have hset : (coerceSerials T ++ [coerceRow data]).set T.length data =
        coerceSerials T ++ [data] := by
      rw [← coerceSerials_length T]
      exact set_append_last (coerceRow data) data (coerceSerials T)
    have hkey : coerceSerials ((coerceSerials T ++ [coerceRow data]).set T.length data) =
        coerceSerials T ++ [coerceRow data] := by
      rw [hset, coerceSerials_append, coerceSerials_idem]
      rfl
    have hmain : (upsert_student (upsert_student T data).1 data).1 =
        (upsert_student T data).1 := by
      rw [h1T, h2T, hkey]
    refine ⟨hmain, ?_⟩
    intro hnomatch
    rw [hmain, h1T, List.countP_append]
    have hzero : (coerceSerials T).countP (fun r => pyStr r.id = pyStr data.id) = 0 := by
      apply List.countP_eq_zero.mpr
      intro a ha
      obtain ⟨r, hr, rfl⟩ := List.mem_map.mp ha
      simpa [coerceRow_id] using hnomatch r hr
    rw [hzero]
    simp [coerceRow_id]

/-- Witness for C4 (amended), at a concrete record over the empty store. -/
theorem claim_C4_witness :
    (pyStr dataC4.id ≠ "" ∧ pyStrip (pyStr dataC4.id) = pyStr dataC4.id) ∧
    (upsert_student (upsert_student [] dataC4).1 dataC4).1 = (upsert_student [] dataC4).1 ∧
    ((upsert_student (upsert_student [] dataC4).1 dataC4).1).countP
      (fun r => pyStr r.id = pyStr dataC4.id) = 1 := by
  have h := claim_C4 [] dataC4 (by decide) (by decide)
  exact ⟨⟨by decide, by decide⟩, h.1, h.2 (by simp)⟩

/-- C9: for a record with a non-empty stripped ID, `upsert_student` raises
nothing, and: when some row's stringified ID equals the stripped ID, it
overwrites only the first such row (in place, at the first matching
index), leaving every other row unchanged except for the Serial
re-coercion; otherwise it appends exactly one new row (the record, Serial
re-coerced) after the existing rows, themselves unchanged except for the
Serial re-coercion; a Serial cell that fails to coerce becomes 0. -/
theorem claim_C9 (T : List Row) (data : Row) (h : pyStrip (pyStr data.id) ≠ "") :
    (upsert_student T data).2 = none ∧
    (∀ i, findMatchIdx (pyStrip (pyStr data.id)) T = some i →
      i < T.length ∧
      (∀ r, T[i]? = some r → pyStr r.id = pyStrip (pyStr data.id)) ∧
      (∀ j r, j < i → T[j]? = some r → pyStr r.id ≠ pyStrip (pyStr data.id)) ∧
      ((upsert_student T data).1).length = T.length ∧
      ((upsert_student T data).1)[i]? = some (coerceRow data) ∧
      (∀ j, j ≠ i → ((upsert_student T data).1)[j]? = (T[j]?).map coerceRow)) ∧
    (findMatchIdx (pyStrip (pyStr data.id)) T = none →
      (∀ r ∈ T, pyStr r.id ≠ pyStrip (pyStr data.id)) ∧
      (upsert_student T data).1 = coerceSerials T ++ [coerceRow data]) ∧
    (∀ v, toNumericInt v = none → coerceSerialCell v = .intV 0) := by
  have hup : upsert_student T data =
      match findMatchIdx (pyStrip (pyStr data.id)) T with
      | some i => (coerceSerials (T.set i data), none)
      | none => (coerceSerials (T ++ [data]), none) := by
    simp only [upsert_student]
    rw [if_neg h]
  refine ⟨?_, ?_, ?_, ?_⟩
  · rw [hup]
    cases findMatchIdx (pyStrip (pyStr data.id)) T <;> rfl
  · intro i hfind
    have hlt : i < T.length := findMatchIdx_lt _ T i hfind
    have h1T : (upsert_student T data).1 = coerceSerials (T.set i data) := by
      rw [hup, hfind]
    refine ⟨hlt, findMatchIdx_getElem _ T i hfind,
      findMatchIdx_first _ T i hfind, ?_, ?_, ?_⟩
    · rw [h1T, coerceSerials_length, List.length_set]
    · rw [h1T, getElem?_coerceSerials, getElem?_set_self data T i hlt]
      rfl
    · intro j hj
      rw [h1T, getElem?_coerceSerials, getElem?_set_ne data T i j (fun hij => hj hij.symm)]
  · intro hfind
    refine ⟨findMatchIdx_none_mem _ T hfind, ?_⟩
    rw [hup, hfind]
    show coerceSerials (T ++ [data]) = _
    rw [coerceSerials_append]
    rfl
  · intro v hv
    simp [coerceSerialCell, hv]

/-- Witness for C9, at a store whose second row matches: the match is found
at index 1, the overwritten cell holds the re-coerced record, the first
row is only Serial-re-coerced, and no error is raised. -/
theorem claim_C9_witness :
    findMatchIdx (pyStrip (pyStr dataC9.id)) tC9 = some 1 ∧
    ((upsert_student tC9 dataC9).1)[1]? = some (coerceRow dataC9) ∧
    ((upsert_student tC9 dataC9).1)[0]? = (tC9[0]?).map coerceRow ∧
    (upsert_student tC9 dataC9).2 = none := by
  have hf : findMatchIdx (pyStrip (pyStr dataC9.id)) tC9 = some 1 := by decide
  have h := claim_C9 tC9 dataC9 (by decide)
  have hs := h.2.1 1 hf
  exact ⟨hf, hs.2.2.2.2.1, hs.2.2.2.2.2 0 (by decide), h.1⟩
